/-
Verification of the bounded-slot battery-status state machine of the
zmk-dongle-display-091-oled repository.

The repository's core is a fixed-capacity slot table fed by battery-level
events.  Two allocation policies appear in the source:

* the threshold-match policy of
  `src/boards/shields/dongle_display-091-oled/widgets/battery_status.c`
  (functions `find_matching_slot`, `find_empty_slot`,
  `peripheral_battery_status_get_state`, `central_battery_status_get_state`,
  `update_widget_from_global_state`, `battery_poll_timer_handler`);

* the identity policy of the first handler in the same file
  (`battery_status_event_handler`) and of the variant `src/unnamed/part_000`
  (`battery_status_get_state`).

Each C function is embedded as a Lean function over explicit state.
The C globals `battery_states[]` (fields `source`, `level`, `usb_present`,
all written by the getters) and `battery_state_valid[]` become a pair of
lists carried in a `SlotTable` structure.  `uint8_t` arithmetic is modelled
by `% 256` exactly where the C performs a truncating store.
-/
import Mathlib

namespace DongleDisplay

/-- One entry of the C global `battery_states[]`:
`struct battery_state { uint8_t source; uint8_t level; bool usb_present; }`. -/
structure BatteryState where
  source : Nat
  level : Nat
  usb_present : Bool
  deriving Repr, DecidableEq

/-- The persistent table: `battery_states[TOTAL_SLOTS]` together with
`battery_state_valid[TOTAL_SLOTS]`.  Both lists have length `TOTAL_SLOTS`. -/
structure SlotTable where
  states : List BatteryState
  valid : List Bool
  deriving Repr, DecidableEq

/-- Configuration: `ZMK_SPLIT_BLE_PERIPHERAL_COUNT` and `SOURCE_OFFSET`
(1 when `CONFIG_ZMK_DONGLE_DISPLAY_DONGLE_BATTERY` reserves slot 0, else 0). -/
structure Cfg where
  periphCount : Nat
  sourceOffset : Nat
  deriving Repr, DecidableEq

/-- `TOTAL_SLOTS = ZMK_SPLIT_BLE_PERIPHERAL_COUNT + SOURCE_OFFSET`. -/
def Cfg.total (cfg : Cfg) : Nat := cfg.periphCount + cfg.sourceOffset

/-- `#define BATTERY_THRESHOLD 2`. -/
def BATTERY_THRESHOLD : Nat := 2

/-- The C ternary `a > b ? a - b : b - a` computing `|a - b|` on levels. -/
def levelDiff (a b : Nat) : Nat := if a > b then a - b else b - a

/-- Read `battery_states[i]`; out-of-range reads return the zero value
(the C arrays are fixed-size, so in-range by construction). -/
def SlotTable.stateAt (t : SlotTable) (i : Nat) : BatteryState :=
  t.states.getD i ⟨0, 0, false⟩

/-- Read `battery_state_valid[i]`. -/
def SlotTable.validAt (t : SlotTable) (i : Nat) : Bool :=
  t.valid.getD i false

/-- The table a C static initializer produces: all-zero entries, all invalid. -/
def initTable (cfg : Cfg) : SlotTable :=
  ⟨List.replicate cfg.total ⟨0, 0, false⟩, List.replicate cfg.total false⟩

/-- Well-formedness: both backing lists have exactly `TOTAL_SLOTS` entries. -/
def SlotTable.WF (cfg : Cfg) (t : SlotTable) : Prop :=
  t.states.length = cfg.total ∧ t.valid.length = cfg.total

instance (cfg : Cfg) (t : SlotTable) : Decidable (t.WF cfg) := by
  unfold SlotTable.WF; infer_instance

/-- The body of the ascending scan
`for (int i = start; i < total; i++) if (p i) return i; return -1;`
shared by `find_matching_slot` and `find_empty_slot`, written with the
number of remaining iterations (`total - i`) as structural fuel. -/
def scanFromAux (p : Nat → Bool) : Nat → Nat → Option Nat
  | 0, _ => none
  | fuel + 1, i => if p i then some i else scanFromAux p fuel (i + 1)

/-- The ascending scan itself: try indices `i, i+1, ..., total-1`. -/
def scanFrom (p : Nat → Bool) (total : Nat) (i : Nat) : Option Nat :=
  scanFromAux p (total - i) i

/-- `find_matching_slot`: first slot `i ∈ [SOURCE_OFFSET, TOTAL_SLOTS)` with
`battery_state_valid[i]` and `|battery_states[i].level - new_level| <= 2`. -/
def find_matching_slot (cfg : Cfg) (t : SlotTable) (new_level : Nat) : Option Nat :=
  scanFrom (fun i => t.validAt i && decide (levelDiff (t.stateAt i).level new_level ≤ BATTERY_THRESHOLD))
    cfg.total cfg.sourceOffset

/-- `find_empty_slot`: first slot `i ∈ [SOURCE_OFFSET, TOTAL_SLOTS)` with
`!battery_state_valid[i]`. -/
def find_empty_slot (cfg : Cfg) (t : SlotTable) : Option Nat :=
  scanFrom (fun i => !t.validAt i) cfg.total cfg.sourceOffset

/-- The table mutation performed by `peripheral_battery_status_get_state` on a
peripheral event `{ source = src; state_of_charge = lvl }`.

When `lvl == 0` the C computes `uint8_t idx = ev->source + SOURCE_OFFSET;`
— a truncating `uint8_t` store, hence the `% 256` — and clears
`battery_state_valid[idx]` when `idx < TOTAL_SLOTS`, leaving
`battery_states[idx]` itself untouched.

Otherwise it takes `find_matching_slot`, else `find_empty_slot`, else the
fixed fallback `SOURCE_OFFSET`, and overwrites that slot with
`{ .source = idx, .level = lvl, .usb_present = false }`, marking it valid. -/
def peripheral_apply (cfg : Cfg) (t : SlotTable) (src lvl : Nat) : SlotTable :=
  if lvl = 0 then
    let idx := (src + cfg.sourceOffset) % 256
    if idx < cfg.total then { t with valid := t.valid.set idx false } else t
  else
    let idx :=
      match find_matching_slot cfg t lvl with
      | some i => i
      | none =>
        match find_empty_slot cfg t with
        | some i => i
        | none => cfg.sourceOffset
    { states := t.states.set idx ⟨idx, lvl, false⟩, valid := t.valid.set idx true }

/-- The table mutation performed by `central_battery_status_get_state`.
`ev? = some l` models a `zmk_battery_state_changed` event with
`state_of_charge = l`; `ev? = none` models any other event reaching the
central getter, in which case the level comes from the
`zmk_battery_state_of_charge()` hardware fallback (`fb`).
`usbStack` models `IS_ENABLED(CONFIG_USB_DEVICE_STACK)` and `usbPowered`
the `zmk_usb_is_powered()` collaborator; when the USB stack is disabled the
`usb_present` field keeps its previous value (the C leaves it unassigned). -/
def central_apply (t : SlotTable) (ev? : Option Nat) (fb : Nat)
    (usbStack usbPowered : Bool) : SlotTable :=
  if ev? = some 0 then
    { t with valid := t.valid.set 0 false }
  else
    let lvl := ev?.getD fb
    let st : BatteryState :=
      ⟨0, lvl, if usbStack then usbPowered else (t.stateAt 0).usb_present⟩
    { states := t.states.set 0 st, valid := t.valid.set 0 (decide (lvl ≠ 0)) }

/-- An event reaching `battery_status_get_state` of the threshold variant:
either a peripheral battery event, or anything else (routed to the central
getter together with its environment readings). -/
inductive BatteryEvent where
  | peripheral (src lvl : Nat)
  | central (ev? : Option Nat) (fb : Nat) (usbStack usbPowered : Bool)
  deriving Repr, DecidableEq

/-- `battery_status_get_state` dispatch: peripheral events go to the
peripheral getter, everything else to the central getter. -/
def battery_status_get_state (cfg : Cfg) (t : SlotTable) : BatteryEvent → SlotTable
  | .peripheral src lvl => peripheral_apply cfg t src lvl
  | .central ev? fb us up => central_apply t ev? fb us up

/-- Folding a whole sequence of events over the table. -/
def runEvents (cfg : Cfg) (t : SlotTable) : List BatteryEvent → SlotTable
  | [] => t
  | e :: es => runEvents cfg (battery_status_get_state cfg t e) es

/-! ## Rendering and the poll tick (threshold variant)

`update_widget_from_global_state` walks the slots `0 .. TOTAL_SLOTS-1` of one
widget; a slot renders its percentage when `battery_state_valid[i]` and
`battery_states[i].level != 0`, and is hidden otherwise.
`battery_poll_timer_handler` re-runs that walk on every registered widget and
touches no state. -/

/-- The visible content `render(slotIndex, content)` of one label. -/
inductive RenderState where
  | Hidden
  | Percent (n : Nat)
  deriving Repr, DecidableEq

/-- What `update_widget_from_global_state` puts into the label of slot `i`. -/
def renderSlot (t : SlotTable) (i : Nat) : RenderState :=
  if t.validAt i && decide ((t.stateAt i).level ≠ 0) then
    .Percent (t.stateAt i).level
  else
    .Hidden

/-- `update_widget_from_global_state`: the full sequence of render calls
issued for one widget, slot by slot in increasing index order. -/
def update_widget_from_global_state (cfg : Cfg) (t : SlotTable) :
    List (Nat × RenderState) :=
  (List.range cfg.total).map (fun i => (i, renderSlot t i))

/-- `battery_poll_timer_handler`: one tick renders every registered widget
from the shared global table and returns the table unchanged (the C handler
only reads `battery_states` / `battery_state_valid`). -/
def battery_poll_timer_handler (cfg : Cfg) (t : SlotTable) (widgets : List Nat) :
    List (List (Nat × RenderState)) × SlotTable :=
  (widgets.map (fun _ => update_widget_from_global_state cfg t), t)

/-! ## Identity-policy variants

The first handler of `battery_status.c` (`battery_status_event_handler`)
keeps `uint8_t level[ZMK_SPLIT_BLE_PERIPHERAL_COUNT]` plus a
`bool battery_active[...]` array: an in-range peripheral event stores the
level and sets the active flag, an out-of-range one is dropped, and any
non-peripheral event yields `-ENOTSUP`.

The variant `src/unnamed/part_000` keeps only the level array and writes
`battery_state.level[ev->source] = ev->state_of_charge` with no bounds
check at all. -/

/-- State of the identity-policy handler in `battery_status.c`:
`battery_state.level[]` and `battery_active[]`. -/
structure IdentState where
  level : List Nat
  active : List Bool
  deriving Repr, DecidableEq

/-- Zephyr's `ENOTSUP` errno value; the handler returns `-ENOTSUP` for
events it does not recognize. -/
def ENOTSUP : Int := 134

/-- The state mutation of `battery_status_event_handler` for a peripheral
event `{ index = idx; level = lvl }`: in range it stores the level and marks
the slot active (for any level, zero included); out of range it drops the
event. -/
def identity_apply (count : Nat) (s : IdentState) (idx lvl : Nat) : IdentState :=
  if idx < count then
    { level := s.level.set idx lvl, active := s.active.set idx true }
  else s

/-- `battery_status_event_handler`: `some (idx, lvl)` is a peripheral
battery event, `none` any other event.  Returns the new state and the C
return value (`0` = handled, `-ENOTSUP` = not handled). -/
def battery_status_event_handler (count : Nat) (s : IdentState)
    (ev : Option (Nat × Nat)) : IdentState × Int :=
  match ev with
  | some (idx, lvl) => (identity_apply count s idx lvl, 0)
  | none => (s, -ENOTSUP)

/-- The state mutation of `part_000`'s `battery_status_get_state`:
`battery_state.level[ev->source] = ev->state_of_charge` with no bounds
check.  `none` models the out-of-bounds array write (undefined behavior)
performed when `src` is not below the array length. -/
def part000_battery_status_get_state (count : Nat) (levels : List Nat)
    (src lvl : Nat) : Option (List Nat) :=
  if src < count then some (levels.set src lvl) else none

/-! ## Basic lemmas about list reads after a write and about the scan -/

theorem getD_set_self (l : List α) (i : Nat) (a d : α) (h : i < l.length) :
    (l.set i a).getD i d = a := by
  simp [List.getD_eq_getD_get?, List.get?_eq_getElem?, List.getElem?_set, h]

theorem getD_set_ne (l : List α) (i j : Nat) (a d : α) (h : j ≠ i) :
    (l.set i a).getD j d = l.getD j d := by
  simp [List.getD_eq_getD_get?, List.get?_eq_getElem?, List.getElem?_set, (Ne.symm h)]

theorem getD_set (l : List α) (i j : Nat) (a d : α) :
    (l.set i a).getD j d = if j = i ∧ i < l.length then a else l.getD j d := by
  by_cases hj : j = i
  · subst hj
    by_cases hi : j < l.length
    · simp [getD_set_self _ _ _ _ hi, hi]
    · rw [List.set_eq_of_length_le (Nat.le_of_not_lt hi)]
      simp [hi]
  · rw [getD_set_ne l i j a d hj]
    simp [hj]

theorem scanFromAux_some (p : Nat → Bool) (fuel : Nat) :
    ∀ i j, scanFromAux p fuel i = some j →
      i ≤ j ∧ j < i + fuel ∧ p j = true ∧ ∀ k, i ≤ k → k < j → p k = false := by
  induction fuel with
  | zero => intro i j h; cases h
  | succ n ih =>
    intro i j h
    rw [scanFromAux] at h
    by_cases hp : p i
    · rw [if_pos hp] at h
      cases h
      exact ⟨Nat.le_refl _, by omega, hp,
        fun k hk1 hk2 => absurd hk1 (Nat.not_le_of_lt hk2)⟩
    · rw [if_neg hp] at h
      obtain ⟨h1, h2, h3, h4⟩ := ih (i + 1) j h
      refine ⟨by omega, by omega, h3, fun k hk1 hk2 => ?_⟩
      rcases Nat.eq_or_lt_of_le hk1 with rfl | hlt
      · exact Bool.eq_false_iff.mpr hp
      · exact h4 k hlt hk2

theorem scanFrom_some (p : Nat → Bool) (total i j : Nat)
    (h : scanFrom p total i = some j) :
    i ≤ j ∧ j < total ∧ p j = true ∧ ∀ k, i ≤ k → k < j → p k = false := by
  rw [scanFrom] at h
  obtain ⟨h1, h2, h3, h4⟩ := scanFromAux_some p (total - i) i j h
  exact ⟨h1, by omega, h3, h4⟩

theorem scanFromAux_none_of (p : Nat → Bool) (fuel : Nat) :
    ∀ i, (∀ k, i ≤ k → k < i + fuel → p k = false) →
      scanFromAux p fuel i = none := by
  induction fuel with
  | zero => intro i _; rfl
  | succ n ih =>
    intro i h
    rw [scanFromAux, h i (Nat.le_refl _) (by omega)]
    simp only [Bool.false_eq_true, if_false]
    exact ih (i + 1) fun k hk1 hk2 => h k (by omega) (by omega)

theorem scanFrom_none_of (p : Nat → Bool) (total i : Nat)
    (h : ∀ k, i ≤ k → k < total → p k = false) :
    scanFrom p total i = none := by
  rw [scanFrom]
  exact scanFromAux_none_of p (total - i) i fun k hk1 hk2 => h k hk1 (by omega)

/-! ## Concrete example configurations and tables used by witnesses and
counterexamples -/

/-- Two peripherals plus a reserved central slot (`SOURCE_OFFSET = 1`,
`TOTAL_SLOTS = 3`). -/
def exCfg : Cfg := ⟨2, 1⟩

/-- A fully populated table for `exCfg`: central at 90%, peripherals at 50%
and 80%, every slot valid. -/
def exTable : SlotTable :=
  ⟨[⟨0, 90, false⟩, ⟨1, 50, false⟩, ⟨2, 80, false⟩], [true, true, true]⟩

/-- Three peripherals plus a reserved central slot (`TOTAL_SLOTS = 4`). -/
def exCfg4 : Cfg := ⟨3, 1⟩

/-- A table for `exCfg4` with slots 1 and 2 valid (levels 50 and 80) and
slot 3 still empty. -/
def exTable4 : SlotTable :=
  ⟨[⟨0, 90, false⟩, ⟨1, 50, false⟩, ⟨2, 80, false⟩, ⟨3, 0, false⟩],
   [true, true, true, false]⟩

/-! ## Claim C9: the periodic tick is idempotent and read-only -/

/-- C9: for every table state and every set of registered display instances,
invoking the periodic poll tick twice in succession with no intervening
reading produces the identical sequence of render calls (same slot indices,
same Hidden/level content) on both invocations, and the tick never mutates
the slot table. -/
theorem tick_idempotent_and_pure (cfg : Cfg) (t : SlotTable) (widgets : List Nat) :
    (battery_poll_timer_handler cfg t widgets).2 = t ∧
    (battery_poll_timer_handler cfg
        (battery_poll_timer_handler cfg t widgets).2 widgets).1 =
      (battery_poll_timer_handler cfg t widgets).1 := by
  exact ⟨rfl, rfl⟩

/-! ## Claim C8: unrecognized events are rejected without mutation -/

/-- C8: for every event whose payload is not a peripheral battery reading,
`battery_status_event_handler` returns `-ENOTSUP` ("not handled") to the
caller and leaves the state untouched. -/
theorem unsupported_event_rejected (count : Nat) (s : IdentState) :
    battery_status_event_handler count s none = (s, -ENOTSUP) := by
  exact rfl

/-! ## Claim C7: out-of-range readings under the identity policy

The handler in `battery_status.c` (lines 64–79) guards with
`if (idx < ZMK_SPLIT_BLE_PERIPHERAL_COUNT)` and silently discards
out-of-range readings, as the claim says.  The `part_000` variant's
`battery_status_get_state` performs
`battery_state.level[ev->source] = ev->state_of_charge` with no bounds
check: for `source = 2` against a two-entry array this is an out-of-bounds
write (undefined behavior), contradicting the claim that the operation
does not fault. -/

/-- C7: with two peripheral slots, a reading for source 2 is silently
discarded with return value 0 by the bounds-checked handler of
`battery_status.c`, but the `part_000` variant's unchecked array write
faults (modelled as `none`) on the same reading. -/
theorem out_of_range_reading_part000_faults :
    battery_status_event_handler 2 ⟨[50, 60], [true, true]⟩ (some (2, 30)) =
      (⟨[50, 60], [true, true]⟩, 0) ∧
    part000_battery_status_get_state 2 [50, 60] 2 30 = none := by
  exact ⟨rfl, rfl⟩

/-! ## Claim C5: the reserved central slot and peripheral readings

All four addressing paths of the threshold policy (`find_matching_slot`,
`find_empty_slot`, the fixed fallback `SOURCE_OFFSET`, and the zero-level
eviction index `source + SOURCE_OFFSET`) are meant to stay at or above
`SOURCE_OFFSET`.  The eviction index, however, is stored into a `uint8_t`:
`uint8_t idx = ev->source + SOURCE_OFFSET;` truncates modulo 256, so a
zero-level reading with `source = 255` and `SOURCE_OFFSET = 1` yields
`idx = 0`, passes the `idx < TOTAL_SLOTS` check, and clears
`battery_state_valid[0]` — the reserved central slot. -/

/-- C5: a peripheral zero-level reading from source 255 deactivates the
reserved central slot 0 (uint8 wraparound of `source + SOURCE_OFFSET`),
although slot 0 was valid and the claim says no peripheral reading ever
writes slot 0. -/
theorem wraparound_zero_reading_evicts_central_slot :
    exTable.validAt 0 = true ∧
    (peripheral_apply exCfg exTable 255 0).validAt 0 = false := by
  exact ⟨rfl, rfl⟩

/-! ## Claim C6: identity-policy update of the targeted slot

The identity-policy handler of `battery_status.c` stores the level and sets
`battery_active[idx] = true` for every in-range reading, with no special
case for `level == 0`; it keeps no `boundSource` field at all.  So a
zero-level reading marks the slot active (it will render as an empty icon
or "0%"), it does not deactivate it. -/

/-- C6 counterexample: with two slots, slot 0 inactive, a reading
`(sourceId 0, level 0)` makes slot 0 active (`battery_active[0] = true`)
with stored level 0 — the claim says a zero-level reading makes the
targeted slot `active = false`. -/
theorem zero_reading_activates_slot :
    ((battery_status_event_handler 2 ⟨[50, 60], [false, true]⟩
        (some (0, 0))).1).active.getD 0 false = true ∧
    ((battery_status_event_handler 2 ⟨[50, 60], [false, true]⟩
        (some (0, 0))).1).level.getD 0 0 = 0 := by
  exact ⟨rfl, rfl⟩

/-- C6 as amended: under the identity policy, every in-range reading —
zero level included — sets the targeted slot's stored level to the incoming
level and marks the slot active; every other slot is unchanged.  (The
identity implementation keeps no `boundSource` field, so nothing is
reassigned or retained.) -/
theorem identity_in_range_update (count : Nat) (s : IdentState) (idx lvl : Nat)
    (h : idx < count) (hl : idx < s.level.length) (ha : idx < s.active.length) :
    (identity_apply count s idx lvl).level.getD idx 0 = lvl ∧
    (identity_apply count s idx lvl).active.getD idx false = true ∧
    (∀ j, j ≠ idx →
      (identity_apply count s idx lvl).level.getD j 0 = s.level.getD j 0 ∧
      (identity_apply count s idx lvl).active.getD j false = s.active.getD j false) := by
  unfold identity_apply
  rw [if_pos h]
  refine ⟨getD_set_self _ _ _ _ hl, getD_set_self _ _ _ _ ha, fun j hj => ?_⟩
  exact ⟨getD_set_ne _ _ _ _ _ hj, getD_set_ne _ _ _ _ _ hj⟩

/-- C6 amended witness: the amended statement evaluated at the concrete
state `⟨[50, 60], [false, true]⟩` with reading `(1, 77)`. -/
theorem identity_in_range_update_witness :
    (identity_apply 2 ⟨[50, 60], [false, true]⟩ 1 77).level.getD 1 0 = 77 ∧
    (identity_apply 2 ⟨[50, 60], [false, true]⟩ 1 77).active.getD 1 false = true ∧
    (identity_apply 2 ⟨[50, 60], [false, true]⟩ 1 77).level.getD 0 0 = 50 := by
  obtain ⟨h1, h2, h3⟩ :=
    identity_in_range_update 2 ⟨[50, 60], [false, true]⟩ 1 77
      (by decide) (by decide) (by decide)
  exact ⟨h1, h2, ((h3 0 (by decide)).1).trans (by decide)⟩

/-! ## Claim C1: the zero-level eviction path of the threshold policy

The C does not search for the slot bound to the reporting source: it
computes `uint8_t idx = ev->source + SOURCE_OFFSET;` and clears
`battery_state_valid[idx]` whenever `idx < TOTAL_SLOTS`.  The stored
`source` fields are never consulted (they hold slot indices anyway). -/

/-- C1 counterexample: in `exTable` the slot whose stored source equals the
reading's sourceId 1 is slot 1, so the claim predicts slot 1 becomes
inactive and slot 2 is untouched; the code instead deactivates slot 2
(index `1 + SOURCE_OFFSET`) and leaves slot 1 active. -/
theorem eviction_ignores_bound_source :
    (exTable.stateAt 1).source = 1 ∧ exTable.validAt 1 = true ∧
    (peripheral_apply exCfg exTable 1 0).validAt 1 = true ∧
    (peripheral_apply exCfg exTable 1 0).validAt 2 = false := by
  exact ⟨rfl, rfl, rfl, rfl⟩

/-- C1 as amended: on a zero-level peripheral reading the slot at uint8
index `(sourceId + SOURCE_OFFSET) % 256` — regardless of any stored
binding — becomes inactive while every stored slot value is retained, and
every other slot's active flag is unchanged; if that index is out of range
the table is unchanged.  A nonzero peripheral reading never deactivates a
slot. -/
theorem zero_reading_identity_addressed (cfg : Cfg) (t : SlotTable) (src : Nat) :
    (∀ j, (peripheral_apply cfg t src 0).stateAt j = t.stateAt j) ∧
    ((src + cfg.sourceOffset) % 256 < cfg.total →
      (peripheral_apply cfg t src 0).validAt ((src + cfg.sourceOffset) % 256) = false ∧
      ∀ j, j ≠ (src + cfg.sourceOffset) % 256 →
        (peripheral_apply cfg t src 0).validAt j = t.validAt j) ∧
    (¬ (src + cfg.sourceOffset) % 256 < cfg.total →
      peripheral_apply cfg t src 0 = t) ∧
    (∀ lvl, lvl ≠ 0 → ∀ j, t.validAt j = true →
      (peripheral_apply cfg t src lvl).validAt j = true) := by
  refine ⟨fun j => ?_, fun hin => ⟨?_, fun j hj => ?_⟩, fun hout => ?_, ?_⟩
  · unfold peripheral_apply
    rw [if_pos rfl]
    by_cases hin : (src + cfg.sourceOffset) % 256 < cfg.total
    · rw [if_pos hin]
      exact rfl
    · rw [if_neg hin]
  · unfold peripheral_apply
    rw [if_pos rfl, if_pos hin]
    show (t.valid.set _ false).getD _ false = false
    rw [getD_set]
    by_cases hlen : (src + cfg.sourceOffset) % 256 < t.valid.length
    · simp [hlen]
    · rw [if_neg (by simp [hlen])]
      exact List.getD_eq_default _ _ (Nat.le_of_not_lt hlen)
  · unfold peripheral_apply
    rw [if_pos rfl, if_pos hin]
    show (t.valid.set _ false).getD j false = t.valid.getD j false
    rw [getD_set, if_neg (by simp [hj])]
  · unfold peripheral_apply
    rw [if_pos rfl, if_neg hout]
  · intro lvl hlvl j hj
    unfold peripheral_apply
    rw [if_neg hlvl]
    show (t.valid.set _ true).getD j false = true
    rw [getD_set]
    split
    · rfl
    · exact hj

/-- C1 amended witness: the amended statement evaluated at `exCfg`,
`exTable` and a zero-level reading from source 0: slot `(0+1) % 256 = 1`
is deactivated, slot 2 keeps its flag, and a later nonzero reading keeps
slot 0 active. -/
theorem zero_reading_identity_addressed_witness :
    (peripheral_apply exCfg exTable 0 0).validAt 1 = false ∧
    (peripheral_apply exCfg exTable 0 0).validAt 2 = true ∧
    (peripheral_apply exCfg exTable 0 51).validAt 0 = true := by
  obtain ⟨h1, h2, h3, h4⟩ := zero_reading_identity_addressed exCfg exTable 0
  obtain ⟨ha, hb⟩ := h2 (by decide)
  exact ⟨ha, (hb 2 (by decide)).trans (by decide), h4 51 (by decide) 0 (by decide)⟩

/-! ## Claim C2: the matching step of the threshold policy

`find_matching_slot` receives only the incoming level: it scans every valid
slot from `SOURCE_OFFSET` upward and returns the first within
`BATTERY_THRESHOLD`, with no condition on any stored binding and no use of
the event's source.  The reuse then stores the slot's own index into the
`source` field (`battery_states[idx].source = idx`), not the reading's
sourceId. -/

/-- C2 counterexample, two concrete inputs.  First: in `exTable` a reading
`(sourceId 0, level 51)` reuses slot 1, but the slot's stored source stays
1 (its own index) — the claim says it becomes the reading's sourceId 0.
Second: in `exTable4` a reading `(sourceId 1, level 50)` is matched onto
slot 1 even though slot 1's stored source equals the reading's sourceId —
the claim says such a slot is not considered, which would have sent the
reading to the empty slot 3; slot 3 stays inactive. -/
theorem matching_ignores_source_identity :
    (((peripheral_apply exCfg exTable 0 51).stateAt 1).level = 51 ∧
      ((peripheral_apply exCfg exTable 0 51).stateAt 1).source = 1) ∧
    ((exTable4.stateAt 1).source = 1 ∧
      ((peripheral_apply exCfg4 exTable4 1 50).stateAt 1).level = 50 ∧
      (peripheral_apply exCfg4 exTable4 1 50).validAt 3 = false) := by
  exact ⟨⟨rfl, rfl⟩, ⟨rfl, rfl, rfl⟩⟩

/-- C2 as amended: for a nonzero peripheral reading, slots are scanned in
increasing index order starting at the reserved offset; every valid slot is
considered, regardless of its stored binding and of the reading's sourceId
(which the matching step never consults); when the scan returns a slot `i`,
`i` is the least valid index at or above the offset within
`BATTERY_THRESHOLD` of the incoming level, slot `i` is overwritten with
level = incoming level, source = the slot's own index `i`, and it stays
active; every other slot is unchanged; and the whole update is independent
of the reading's sourceId. -/
theorem threshold_match_reuses_first_within_tolerance (cfg : Cfg) (t : SlotTable)
    (src lvl i : Nat) (hlvl : lvl ≠ 0)
    (hfind : find_matching_slot cfg t lvl = some i)
    (hWF : t.WF cfg) :
    cfg.sourceOffset ≤ i ∧ i < cfg.total ∧ t.validAt i = true ∧
    levelDiff (t.stateAt i).level lvl ≤ BATTERY_THRESHOLD ∧
    (∀ k, cfg.sourceOffset ≤ k → k < i →
      ¬(t.validAt k = true ∧ levelDiff (t.stateAt k).level lvl ≤ BATTERY_THRESHOLD)) ∧
    (peripheral_apply cfg t src lvl).stateAt i = ⟨i, lvl, false⟩ ∧
    (peripheral_apply cfg t src lvl).validAt i = true ∧
    (∀ j, j ≠ i → (peripheral_apply cfg t src lvl).stateAt j = t.stateAt j ∧
      (peripheral_apply cfg t src lvl).validAt j = t.validAt j) ∧
    (∀ src', peripheral_apply cfg t src' lvl = peripheral_apply cfg t src lvl) := by
  obtain ⟨h1, h2, h3, h4⟩ := scanFrom_some _ _ _ _ hfind
  rw [Bool.and_eq_true] at h3
  obtain ⟨hvalid, hdiff⟩ := h3
  have happ : peripheral_apply cfg t src lvl =
      ⟨t.states.set i ⟨i, lvl, false⟩, t.valid.set i true⟩ := by
    unfold peripheral_apply
    rw [if_neg hlvl]
    show (⟨t.states.set (match find_matching_slot cfg t lvl with
      | some i => i
      | none => match find_empty_slot cfg t with
        | some i => i
        | none => cfg.sourceOffset) _, _⟩ : SlotTable) = _
    rw [hfind]
  refine ⟨h1, h2, hvalid, of_decide_eq_true hdiff, ?_, ?_, ?_, ?_, ?_⟩
  · intro k hk1 hk2 hk3
    have := h4 k hk1 hk2
    rw [Bool.and_eq_false_iff] at this
    rcases this with hv | hd
    · rw [hk3.1] at hv
      cases hv
    · exact absurd (decide_eq_true hk3.2) (by rw [hd]; intro hc; cases hc)
  · rw [happ]
    show (t.states.set i _).getD i _ = _
    exact getD_set_self _ _ _ _ (hWF.1 ▸ h2)
  · rw [happ]
    show (t.valid.set i true).getD i false = true
    exact getD_set_self _ _ _ _ (hWF.2 ▸ h2)
  · intro j hj
    rw [happ]
    exact ⟨getD_set_ne _ _ _ _ _ hj, getD_set_ne _ _ _ _ _ hj⟩
  · intro src'
    unfold peripheral_apply
    rw [if_neg hlvl, if_neg hlvl]

/-- C2 amended witness: the amended statement evaluated at `exCfg`,
`exTable`, sourceId 7 and level 51: slot 1 (level 50, within tolerance) is
reused as `⟨1, 51, false⟩`, slot 2 keeps its state, and sourceId 9 would
produce the same table. -/
theorem threshold_match_witness :
    (peripheral_apply exCfg exTable 7 51).stateAt 1 = ⟨1, 51, false⟩ ∧
    (peripheral_apply exCfg exTable 7 51).stateAt 2 = ⟨2, 80, false⟩ ∧
    peripheral_apply exCfg exTable 9 51 = peripheral_apply exCfg exTable 7 51 := by
  obtain ⟨_, _, _, _, _, h6, _, h8, h9⟩ :=
    threshold_match_reuses_first_within_tolerance exCfg exTable 7 51 1
      (by decide) (by decide) (by decide)
  exact ⟨h6, ((h8 2 (by decide)).1).trans (by decide), h9 9⟩

/-! ## Claim C3: fallback overwrite under slot pressure -/

/-- C3: when a nonzero reading matches no slot within `BATTERY_THRESHOLD`
and every slot after the reserved offset is already active, the first
non-reserved slot (index `SOURCE_OFFSET`) is overwritten with the reading
(it holds the incoming level and stays active) and every other slot of the
table is unchanged. -/
theorem fallback_overwrites_first_nonreserved (cfg : Cfg) (t : SlotTable)
    (src lvl : Nat) (hlvl : lvl ≠ 0) (hoff : cfg.sourceOffset < cfg.total)
    (hWF : t.WF cfg)
    (hfull : ∀ i < cfg.total, cfg.sourceOffset ≤ i → t.validAt i = true)
    (hnomatch : ∀ i < cfg.total, cfg.sourceOffset ≤ i →
      BATTERY_THRESHOLD < levelDiff (t.stateAt i).level lvl) :
    (peripheral_apply cfg t src lvl).stateAt cfg.sourceOffset =
      ⟨cfg.sourceOffset, lvl, false⟩ ∧
    (peripheral_apply cfg t src lvl).validAt cfg.sourceOffset = true ∧
    (∀ j, j ≠ cfg.sourceOffset →
      (peripheral_apply cfg t src lvl).stateAt j = t.stateAt j ∧
      (peripheral_apply cfg t src lvl).validAt j = t.validAt j) := by
  have hfindm : find_matching_slot cfg t lvl = none := by
    apply scanFrom_none_of
    intro k hk1 hk2
    have hd := hnomatch k hk2 hk1
    simp [decide_eq_false (Nat.not_le_of_lt hd)]
  have hfinde : find_empty_slot cfg t = none := by
    apply scanFrom_none_of
    intro k hk1 hk2
    simp [hfull k hk2 hk1]
  have happ : peripheral_apply cfg t src lvl =
      ⟨t.states.set cfg.sourceOffset ⟨cfg.sourceOffset, lvl, false⟩,
       t.valid.set cfg.sourceOffset true⟩ := by
    unfold peripheral_apply
    rw [if_neg hlvl]
    show (⟨t.states.set (match find_matching_slot cfg t lvl with
      | some i => i
      | none => match find_empty_slot cfg t with
        | some i => i
        | none => cfg.sourceOffset) _, _⟩ : SlotTable) = _
    rw [hfindm, hfinde]
  refine ⟨?_, ?_, fun j hj => ?_⟩
  · rw [happ]
    show (t.states.set _ _).getD _ _ = _
    exact getD_set_self _ _ _ _ (hWF.1 ▸ hoff)
  · rw [happ]
    show (t.valid.set _ true).getD _ false = true
    exact getD_set_self _ _ _ _ (hWF.2 ▸ hoff)
  · rw [happ]
    exact ⟨getD_set_ne _ _ _ _ _ hj, getD_set_ne _ _ _ _ _ hj⟩

/-- C3 witness: `exTable` is fully active with levels 50 and 80 after the
offset; a reading of level 60 (more than 2 points from both) overwrites
slot 1 (= `SOURCE_OFFSET`) and leaves slot 2 and the central slot 0
untouched. -/
theorem fallback_overwrites_first_nonreserved_witness :
    (peripheral_apply exCfg exTable 7 60).stateAt 1 = ⟨1, 60, false⟩ ∧
    (peripheral_apply exCfg exTable 7 60).validAt 1 = true ∧
    (peripheral_apply exCfg exTable 7 60).stateAt 2 = ⟨2, 80, false⟩ ∧
    (peripheral_apply exCfg exTable 7 60).stateAt 0 = ⟨0, 90, false⟩ := by
  obtain ⟨h1, h2, h3⟩ :=
    fallback_overwrites_first_nonreserved exCfg exTable 7 60
      (by decide) (by decide) (by decide) (by decide) (by decide)
  exact ⟨h1, h2, ((h3 2 (by decide)).1).trans (by decide),
    ((h3 0 (by decide)).1).trans (by decide)⟩

/-! ## Claim C4: the central path

`central_battery_status_get_state` only ever touches slot 0, and its level
comes from the explicit event when present, else from
`zmk_battery_state_of_charge()`.  But an explicit reading with
`state_of_charge == 0` takes the early branch that only clears
`battery_state_valid[0]`: the stored level of slot 0 is retained, not set
to 0. -/

/-- C4 counterexample: slot 0 of `exTable` holds level 90; an explicit
central reading of level 0 leaves the stored level at 90 while clearing
the active flag — the claim says slot 0's level is taken from the explicit
reading (0) whenever one is present. -/
theorem central_zero_reading_retains_level :
    ((central_apply exTable (some 0) 42 true false).stateAt 0).level = 90 ∧
    (central_apply exTable (some 0) 42 true false).validAt 0 = false := by
  exact ⟨rfl, rfl⟩

/-- C4 as amended: the central path updates slot 0 only (it never scans,
matches against, or evicts any other slot).  An explicit reading with
level 0 deactivates slot 0 and retains its stored state; any other
invocation sets slot 0's level from the explicit reading when present and
otherwise from the `zmk_battery_state_of_charge()` fallback, stores source
0, and makes slot 0 active iff that level is nonzero. -/
theorem central_targets_slot_zero_only (t : SlotTable) (ev? : Option Nat)
    (fb : Nat) (us up : Bool) (h0s : 0 < t.states.length) (h0v : 0 < t.valid.length) :
    (∀ j, j ≠ 0 → (central_apply t ev? fb us up).stateAt j = t.stateAt j ∧
      (central_apply t ev? fb us up).validAt j = t.validAt j) ∧
    (ev? = some 0 → (central_apply t ev? fb us up).validAt 0 = false ∧
      (central_apply t ev? fb us up).stateAt 0 = t.stateAt 0) ∧
    (ev? ≠ some 0 →
      ((central_apply t ev? fb us up).stateAt 0).level = ev?.getD fb ∧
      ((central_apply t ev? fb us up).stateAt 0).source = 0 ∧
      ((central_apply t ev? fb us up).validAt 0 = true ↔ ev?.getD fb ≠ 0)) := by
  by_cases hev : ev? = some 0
  · refine ⟨fun j hj => ?_, fun _ => ⟨?_, ?_⟩, fun h => absurd hev h⟩
    · unfold central_apply
      rw [if_pos hev]
      exact ⟨rfl, getD_set_ne _ _ _ _ _ hj⟩
    · unfold central_apply
      rw [if_pos hev]
      show (t.valid.set 0 false).getD 0 false = false
      exact getD_set_self _ _ _ _ h0v
    · unfold central_apply
      rw [if_pos hev]
      exact rfl
  · have happ : central_apply t ev? fb us up =
        ⟨t.states.set 0 ⟨0, ev?.getD fb,
            if us then up else (t.stateAt 0).usb_present⟩,
         t.valid.set 0 (decide (ev?.getD fb ≠ 0))⟩ := by
      unfold central_apply
      rw [if_neg hev]
    refine ⟨fun j hj => ?_, fun h => absurd h hev, fun _ => ⟨?_, ?_, ?_⟩⟩
    · rw [happ]
      exact ⟨getD_set_ne _ _ _ _ _ hj, getD_set_ne _ _ _ _ _ hj⟩
    · rw [happ]
      show ((t.states.set 0 _).getD 0 _).level = _
      rw [getD_set_self _ _ _ _ h0s]
    · rw [happ]
      show ((t.states.set 0 _).getD 0 _).source = 0
      rw [getD_set_self _ _ _ _ h0s]
    · rw [happ]
      show (t.valid.set 0 _).getD 0 false = true ↔ _
      rw [getD_set_self _ _ _ _ h0v]
      exact decide_eq_true_iff

/-- C4 amended witness: the amended statement evaluated at `exTable` with
an explicit central reading of level 75: slot 0 becomes level 75, source 0,
active, and peripheral slot 1 is untouched. -/
theorem central_targets_slot_zero_only_witness :
    ((central_apply exTable (some 75) 42 true false).stateAt 0).level = 75 ∧
    (central_apply exTable (some 75) 42 true false).validAt 0 = true ∧
    (central_apply exTable (some 75) 42 true false).stateAt 1 = ⟨1, 50, false⟩ := by
  obtain ⟨h1, _, h3⟩ :=
    central_targets_slot_zero_only exTable (some 75) 42 true false
      (by decide) (by decide)
  obtain ⟨ha, _, hc⟩ := h3 (by decide)
  exact ⟨ha, hc.mpr (by decide), ((h1 1 (by decide)).1).trans (by decide)⟩

/-! ## Claim C10: stored `source` fields hold slot indices

Every write of `battery_states[idx]` in the threshold variant stores
`.source = idx` (`peripheral_battery_status_get_state`) or `.source = 0`
into slot 0 (`central_battery_status_get_state`); the physical sourceId of
the reporting device never reaches the table. -/

/-- The dispatcher sends peripheral events to the peripheral getter. -/
theorem get_state_peripheral (cfg : Cfg) (t : SlotTable) (src lvl : Nat) :
    battery_status_get_state cfg t (.peripheral src lvl) =
      peripheral_apply cfg t src lvl := rfl

/-- The dispatcher sends every other event to the central getter. -/
theorem get_state_central (cfg : Cfg) (t : SlotTable) (ev? : Option Nat)
    (fb : Nat) (us up : Bool) :
    battery_status_get_state cfg t (.central ev? fb us up) =
      central_apply t ev? fb us up := rfl

/-- Any nonzero peripheral reading writes exactly one slot `idx` with
`⟨idx, lvl, false⟩` and marks it valid, for some `idx` chosen by the
match/empty/fallback cascade. -/
theorem peripheral_apply_nonzero (cfg : Cfg) (t : SlotTable) (src lvl : Nat)
    (h : lvl ≠ 0) :
    ∃ idx, peripheral_apply cfg t src lvl =
      ⟨t.states.set idx ⟨idx, lvl, false⟩, t.valid.set idx true⟩ := by
  unfold peripheral_apply
  rw [if_neg h]
  exact ⟨_, rfl⟩

/-- A zero-level peripheral reading never changes the `states` list. -/
theorem peripheral_apply_zero_states (cfg : Cfg) (t : SlotTable) (src : Nat) :
    (peripheral_apply cfg t src 0).states = t.states := by
  unfold peripheral_apply
  rw [if_pos rfl]
  by_cases hin : (src + cfg.sourceOffset) % 256 < cfg.total
  · rw [if_pos hin]
  · rw [if_neg hin]

/-- The slot-index invariant survives a write of `⟨idx, lvl, usb⟩` into slot
`idx` together with any flag update of that slot. -/
theorem inv_after_write (t : SlotTable) (idx lvl : Nat) (usb : Bool) (b : Bool)
    (hlen : t.states.length = t.valid.length)
    (hinv : ∀ i, t.validAt i = true → (t.stateAt i).source = i) :
    ∀ i, (⟨t.states.set idx ⟨idx, lvl, usb⟩, t.valid.set idx b⟩ : SlotTable).validAt i = true →
      ((⟨t.states.set idx ⟨idx, lvl, usb⟩, t.valid.set idx b⟩ : SlotTable).stateAt i).source = i := by
  intro i hi
  show ((t.states.set idx _).getD i _).source = i
  by_cases hc : i = idx ∧ idx < t.states.length
  · rw [getD_set, if_pos hc]
    exact hc.1.symm
  · rw [getD_set, if_neg hc]
    apply hinv
    show t.valid.getD i false = true
    rw [hlen] at hc
    have hi' : (t.valid.set idx b).getD i false = true := hi
    rwa [getD_set, if_neg hc] at hi'

/-- The slot-index invariant survives clearing one valid flag. -/
theorem inv_after_clear (t : SlotTable) (idx : Nat)
    (hinv : ∀ i, t.validAt i = true → (t.stateAt i).source = i) :
    ∀ i, ({ t with valid := t.valid.set idx false } : SlotTable).validAt i = true →
      (({ t with valid := t.valid.set idx false } : SlotTable).stateAt i).source = i := by
  intro i hi
  apply hinv
  have hi' : (t.valid.set idx false).getD i false = true := hi
  rw [getD_set] at hi'
  by_cases hc : i = idx ∧ idx < t.valid.length
  · rw [if_pos hc] at hi'
    cases hi'
  · rw [if_neg hc] at hi'
    exact hi'

/-- One event preserves both the equal-length property of the two backing
lists and the slot-index invariant. -/
theorem step_preserves_inv (cfg : Cfg) (t : SlotTable) (e : BatteryEvent)
    (hlen : t.states.length = t.valid.length)
    (hinv : ∀ i, t.validAt i = true → (t.stateAt i).source = i) :
    (battery_status_get_state cfg t e).states.length =
      (battery_status_get_state cfg t e).valid.length ∧
    ∀ i, (battery_status_get_state cfg t e).validAt i = true →
      ((battery_status_get_state cfg t e).stateAt i).source = i := by
  cases e with
  | peripheral src lvl =>
    rw [get_state_peripheral]
    by_cases hlvl : lvl = 0
    · subst hlvl
      unfold peripheral_apply
      rw [if_pos rfl]
      by_cases hin : (src + cfg.sourceOffset) % 256 < cfg.total
      · rw [if_pos hin]
        exact ⟨by simpa using hlen, inv_after_clear t _ hinv⟩
      · rw [if_neg hin]
        exact ⟨hlen, hinv⟩
    · obtain ⟨idx, happ⟩ := peripheral_apply_nonzero cfg t src lvl hlvl
      rw [happ]
      exact ⟨by simpa using hlen, inv_after_write t idx lvl false true hlen hinv⟩
  | central ev? fb us up =>
    rw [get_state_central]
    by_cases hev : ev? = some 0
    · unfold central_apply
      rw [if_pos hev]
      exact ⟨by simpa using hlen, inv_after_clear t 0 hinv⟩
    · unfold central_apply
      rw [if_neg hev]
      exact ⟨by simpa using hlen,
        inv_after_write t 0 (ev?.getD fb)
          (if us then up else (t.stateAt 0).usb_present)
          (decide (ev?.getD fb ≠ 0)) hlen hinv⟩

/-- The slot-index invariant holds after any event sequence from any state
satisfying it. -/
theorem runEvents_preserves_inv (cfg : Cfg) (evs : List BatteryEvent) :
    ∀ t : SlotTable, t.states.length = t.valid.length →
      (∀ i, t.validAt i = true → (t.stateAt i).source = i) →
      (runEvents cfg t evs).states.length = (runEvents cfg t evs).valid.length ∧
      ∀ i, (runEvents cfg t evs).validAt i = true →
        ((runEvents cfg t evs).stateAt i).source = i := by
  induction evs with
  | nil => exact fun t h1 h2 => ⟨h1, h2⟩
  | cons e es ih =>
    intro t h1 h2
    obtain ⟨h1', h2'⟩ := step_preserves_inv cfg t e h1 h2
    exact ih _ h1' h2'

/-- C10: after any sequence of peripheral or central readings applied from
the initial table, every active slot's stored `source` field equals the
slot's own index; and in every single step, any slot whose stored entry
changes receives `source` equal to its own index — the physical sourceId
of the reporting device is never retained in the table. -/
theorem stored_source_is_slot_index (cfg : Cfg) (evs : List BatteryEvent) :
    (∀ i, (runEvents cfg (initTable cfg) evs).validAt i = true →
      ((runEvents cfg (initTable cfg) evs).stateAt i).source = i) ∧
    (∀ (t : SlotTable) (e : BatteryEvent) (i : Nat),
      (battery_status_get_state cfg t e).stateAt i ≠ t.stateAt i →
      ((battery_status_get_state cfg t e).stateAt i).source = i) := by
  constructor
  · refine (runEvents_preserves_inv cfg evs (initTable cfg) (by simp [initTable]) ?_).2
    intro i hi
    exfalso
    have : (List.replicate cfg.total false).getD i false = true := hi
    by_cases h : i < cfg.total
    · rw [List.getD_eq_getElem _ _ (by simpa using h)] at this
      simp at this
    · rw [List.getD_eq_default _ _ (by simpa using Nat.le_of_not_lt h)] at this
      cases this
  · intro t e i hne
    cases e with
    | peripheral src lvl =>
      rw [get_state_peripheral] at hne ⊢
      by_cases hlvl : lvl = 0
      · subst hlvl
        exfalso
        apply hne
        unfold SlotTable.stateAt
        rw [peripheral_apply_zero_states]
      · obtain ⟨idx, happ⟩ := peripheral_apply_nonzero cfg t src lvl hlvl
        rw [happ] at hne ⊢
        show ((t.states.set idx _).getD i _).source = i
        by_cases hc : i = idx ∧ idx < t.states.length
        · rw [getD_set, if_pos hc]
          exact hc.1.symm
        · exfalso
          apply hne
          show (t.states.set idx _).getD i _ = t.states.getD i _
          rw [getD_set, if_neg hc]
    | central ev? fb us up =>
      rw [get_state_central] at hne ⊢
      by_cases hev : ev? = some 0
      · exfalso
        apply hne
        unfold central_apply
        rw [if_pos hev]
        exact rfl
      · unfold central_apply at hne ⊢
        rw [if_neg hev] at hne ⊢
        show ((t.states.set 0 _).getD i _).source = i
        by_cases hc : i = 0 ∧ 0 < t.states.length
        · rw [getD_set, if_pos hc]
          exact hc.1.symm
        · exfalso
          apply hne
          show (t.states.set 0 _).getD i _ = t.states.getD i _
          rw [getD_set, if_neg hc]

/-- C10 witness: binding a first peripheral reading of level 50 under
`exCfg` writes slot 1, and its stored source is the slot index 1. -/
theorem stored_source_is_slot_index_witness :
    ((runEvents exCfg (initTable exCfg) [.peripheral 0 50]).stateAt 1).source = 1 := by
  exact (stored_source_is_slot_index exCfg [.peripheral 0 50]).1 1 (by decide)

end DongleDisplay
